import Mathlib

/-!
Verification development for the encoder-project repository: a shallow
embedding of its database layer (database.js), scanner (scanner.js),
dispatch engine (encoder.js) and window scheduler (scheduler.js), with
theorems settling the frozen claims about the natural-language spec.
-/

namespace Encoder

/-- Allow-list of codecs that do not need transcoding (database.js addMedia,
scanner.js processMediaFile). -/
def acceptedCodecs : List String := ["hevc", "h265", "av1"]

/-- ASCII lowercasing of a string, modelling the JS String.toLowerCase
calls on codec tags (which are ASCII). -/
def lowerStr (s : String) : String := String.mk (s.data.map Char.toLower)

/-- Status values actually written to encoding_jobs.status by the code. -/
inductive JobStatus where
  | queued
  | processing
  | replacing_file
  | completed
  | failed
deriving DecidableEq, Repr

/-- Row of the media table (database.js createMediaTable); the timestamp
columns are not modelled (no claim mentions them). -/
structure MediaRow where
  id : Nat
  title : String
  episode_name : Option String
  directory : String
  file_path : String
  file_size_bytes : Nat
  encoding_type : String
  media_type : String
  needs_encoding : Bool
  encoded_previously : Bool
deriving DecidableEq, Repr

/-- Row of the encoding_jobs table (database.js createEncodingJobsTable);
timestamps and the floating-point size_reduction_percent column are not
modelled (advisory values, no claim depends on them). -/
structure JobRow where
  id : Nat
  media_id : Nat
  status : JobStatus
  priority : Nat
  temp_file_path : Option String
  original_size_bytes : Nat
  new_size_bytes : Option Nat
  error_message : Option String
  retries : Nat
deriving DecidableEq, Repr

/-- The SQLite database state: the two tables touched by the claims plus
the AUTOINCREMENT counters for their INTEGER PRIMARY KEY columns.
Row order in the lists is insertion order (created_at order). -/
structure DB where
  media : List MediaRow
  jobs : List JobRow
  nextMediaId : Nat
  nextJobId : Nat
deriving DecidableEq, Repr

/-- Input record handed to addMedia (the mediaInfo object built by
scanner.js processMediaFile). -/
structure MediaInfo where
  title : String
  episode_name : Option String
  directory : String
  file_path : String
  file_size_bytes : Nat
  encoding_type : String
  media_type : String
deriving DecidableEq, Repr

/-- addMedia (database.js, lines 103-132): an INSERT OR REPLACE keyed by the
UNIQUE file_path column, run with PRAGMA foreign_keys = ON. SQLite REPLACE
deletes every row conflicting on file_path — which, through the
ON DELETE CASCADE clause of encoding_jobs.media_id, also deletes the jobs of
the deleted media rows — and then inserts a brand-new row with a fresh
AUTOINCREMENT id. encoded_previously is absent from the column list, so the
new row gets the column default FALSE. needs_encoding is recomputed from the
lowercased codec tag against acceptedCodecs. Returns the new row id. -/
def addMedia (db : DB) (info : MediaInfo) : DB × Nat :=
  let needsEncoding := !(acceptedCodecs.contains (lowerStr info.encoding_type))
  let deletedIds := (db.media.filter (fun m => m.file_path == info.file_path)).map (·.id)
  let keptMedia := db.media.filter (fun m => !(m.file_path == info.file_path))
  let keptJobs := db.jobs.filter (fun j => !(deletedIds.contains j.media_id))
  let newRow : MediaRow :=
    { id := db.nextMediaId
      title := info.title
      episode_name := info.episode_name
      directory := info.directory
      file_path := info.file_path
      file_size_bytes := info.file_size_bytes
      encoding_type := info.encoding_type
      media_type := info.media_type
      needs_encoding := needsEncoding
      encoded_previously := false }
  ({ media := keptMedia ++ [newRow]
     jobs := keptJobs
     nextMediaId := db.nextMediaId + 1
     nextJobId := db.nextJobId }, db.nextMediaId)

/-- Ordered insertion for the stable sort modelling SQL ORDER BY. -/
def insertSorted (le : α → α → Bool) (a : α) : List α → List α
  | [] => [a]
  | b :: l => if le a b then a :: b :: l else b :: insertSorted le a l

/-- Stable insertion sort modelling SQL ORDER BY: elements comparing equal
keep their table order. -/
def sortByLe (le : α → α → Bool) : List α → List α
  | [] => []
  | a :: l => insertSorted le a (sortByLe le l)

/-- Comparison used by getMediaNeedingEncoding: ORDER BY file_size_bytes
DESC (ties keep insertion order via the stable sort). -/
def mediaSizeDescLe (a b : MediaRow) : Bool := b.file_size_bytes ≤ a.file_size_bytes

/-- getMediaNeedingEncoding (database.js, lines 137-144): media rows with
needs_encoding = 1 ordered by descending file size, limited. -/
def getMediaNeedingEncoding (db : DB) (limit : Nat) : List MediaRow :=
  ((sortByLe mediaSizeDescLe (db.media.filter (fun m => m.needs_encoding))).take limit)

/-- Error raised by createEncodingJob when the owning media row is absent. -/
inductive DbError where
  | mediaNotFound
deriving DecidableEq, Repr

/-- createEncodingJob (database.js, lines 149-172): looks the media row up,
throws if absent, otherwise inserts a fresh job in status queued with the
given priority and the media row's size as original_size_bytes. -/
def createEncodingJob (db : DB) (mediaId : Nat) (priority : Nat) :
    Except DbError (DB × Nat) :=
  match db.media.find? (fun m => m.id == mediaId) with
  | none => .error .mediaNotFound
  | some media =>
    let newJob : JobRow :=
      { id := db.nextJobId
        media_id := mediaId
        status := .queued
        priority := priority
        temp_file_path := none
        original_size_bytes := media.file_size_bytes
        new_size_bytes := none
        error_message := none
        retries := 0 }
    .ok ({ media := db.media
           jobs := db.jobs ++ [newJob]
           nextMediaId := db.nextMediaId
           nextJobId := db.nextJobId + 1 }, db.nextJobId)

/-- Partial field update passed to updateJobStatus (the data object).
A field set to none is absent from the update; error_message uses a nested
Option so that some none models writing SQL NULL (clearing the error). -/
structure JobUpdate where
  temp_file_path : Option String
  new_size_bytes : Option Nat
  retries : Option Nat
  error_message : Option (Option String)
deriving DecidableEq, Repr

/-- Update object with no extra fields. -/
def JobUpdate.empty : JobUpdate :=
  { temp_file_path := none, new_size_bytes := none, retries := none,
    error_message := none }

/-- Application of one updateJobStatus call to the matching row. -/
def applyJobUpdate (j : JobRow) (status : JobStatus) (u : JobUpdate) : JobRow :=
  { j with
    status := status
    temp_file_path := match u.temp_file_path with
      | some p => some p
      | none => j.temp_file_path
    new_size_bytes := match u.new_size_bytes with
      | some n => some n
      | none => j.new_size_bytes
    retries := match u.retries with
      | some r => r
      | none => j.retries
    error_message := match u.error_message with
      | some e => e
      | none => j.error_message }

/-- updateJobStatus (database.js, lines 177-190): UPDATE of the row with the
given id, setting status plus the extra fields of the data object. -/
def updateJobStatus (db : DB) (jobId : Nat) (status : JobStatus) (u : JobUpdate) : DB :=
  { db with jobs := db.jobs.map (fun j => if j.id == jobId then applyJobUpdate j status u else j) }

/-- markMediaAsEncoded (database.js, lines 195-205): sets needs_encoding = 0
and encoded_previously = 1 unconditionally on the matching media row, and
overwrites its codec tag and size with the given values. -/
def markMediaAsEncoded (db : DB) (mediaId : Nat) (newEncodingType : String) (newSizeBytes : Nat) : DB :=
  { db with media := db.media.map (fun m =>
      if m.id == mediaId then
        { m with needs_encoding := false
                 encoded_previously := true
                 encoding_type := newEncodingType
                 file_size_bytes := newSizeBytes }
      else m) }

/-- Comparison used by getJobsByStatus: ORDER BY priority DESC,
created_at ASC (creation order equals id order; stable sort keeps it). -/
def jobOrderLe (a b : JobRow) : Bool :=
  if a.priority == b.priority then a.id ≤ b.id else b.priority < a.priority

/-- getJobsByStatus (database.js, lines 210-219): jobs with the given status
JOINed with their media row (jobs whose media row is gone drop out of the
inner join), ordered by priority DESC then creation ASC, limited. -/
def getJobsByStatus (db : DB) (status : JobStatus) (limit : Nat) :
    List (JobRow × MediaRow) :=
  ((sortByLe (fun a b => jobOrderLe a.1 b.1)
      ((db.jobs.filter (fun j => j.status == status)).filterMap
        (fun j => (db.media.find? (fun m => m.id == j.media_id)).map (fun m => (j, m))))).take limit)

/-- getJobById (database.js, lines 242-249): the job row with the given id
JOINed with its media row; absent when either side is missing. -/
def getJobById (db : DB) (jobId : Nat) : Option (JobRow × MediaRow) :=
  (db.jobs.find? (fun j => j.id == jobId)).bind
    (fun j => (db.media.find? (fun m => m.id == j.media_id)).map (fun m => (j, m)))

/-- Non-terminal job statuses (queued, processing, replacing_file). -/
def JobStatus.nonTerminal : JobStatus → Bool
  | .queued => true
  | .processing => true
  | .replacing_file => true
  | .completed => false
  | .failed => false

/-- Number of jobs of the given media id that are in a non-terminal status. -/
def nonTerminalJobCount (db : DB) (mediaId : Nat) : Nat :=
  (db.jobs.filter (fun j => j.media_id == mediaId && j.status.nonTerminal)).length

/-- Priority assigned by admission (scanner.js queueEncodingJobs, line 297):
floor of the size in bytes divided by 100 MB. -/
def admissionPriority (sizeBytes : Nat) : Nat := sizeBytes / (1024 * 1024 * 100)

/-- Job-creation loop body of queueEncodingJobs: one createEncodingJob call
per media row, in order; a thrown error aborts the loop (it cannot fire on
rows that came from the media table itself). -/
def queueJobsList (db : DB) : List MediaRow → Except DbError DB
  | [] => .ok db
  | m :: rest =>
    match createEncodingJob db m.id (admissionPriority m.file_size_bytes) with
    | .error e => .error e
    | .ok (db', _) => queueJobsList db' rest

/-- queueEncodingJobs (scanner.js, lines 289-312): fetches up to 100 media
rows with needs_encoding = 1 and creates one queued encoding job for each,
with a size-derived priority. There is no check for an already-existing
non-terminal job of the same media id. Returns the number of media rows
processed. -/
def queueEncodingJobs (db : DB) : Except DbError (DB × Nat) :=
  let mediaToEncode := getMediaNeedingEncoding db 100
  (queueJobsList db mediaToEncode).map (fun db' => (db', mediaToEncode.length))

/-- Errors thrown by restartJob (encoder.js, lines 631-658). -/
inductive RestartError where
  | notFound
  | invalidState
deriving DecidableEq, Repr

/-- Field update restartJob passes to updateJobStatus: retries incremented
from the current value, error_message set to NULL. -/
def restartUpdate (retries0 : Nat) : JobUpdate :=
  { temp_file_path := none
    new_size_bytes := none
    retries := some (retries0 + 1)
    error_message := some none }

/-- restartJob (encoder.js, lines 631-658): throws notFound when getJobById
finds nothing, invalidState when the job's status is not failed; otherwise
updates the job to queued with retries incremented and error_message
cleared (set to NULL). No write happens on either error path. -/
def restartJob (db : DB) (jobId : Nat) : Except RestartError DB :=
  match getJobById db jobId with
  | none => .error .notFound
  | some (j, _) =>
    if j.status == .failed then
      .ok (updateJobStatus db jobId .queued (restartUpdate j.retries))
    else
      .error .invalidState

/-- Process-wide dispatch-engine state (encoder.js, lines 283-286):
maxParallelJobs, activeJobs, isQueuePaused, and the in-flight map keyed by
job id. activeJobs is an integer: the code only ever adds or subtracts one,
with no floor at zero. -/
structure EngineState where
  maxParallelJobs : Nat
  activeJobs : Int
  isQueuePaused : Bool
  activeJobsMap : List Nat
  db : DB
deriving Repr

/-- Jobs started by one pass of processEncodingQueue (encoder.js, lines
314-352): none when the queue is paused; none when
maxParallelJobs - activeJobs <= 0; otherwise the queued jobs returned by
getJobsByStatus with the available-slot count as limit. -/
def pollPass (s : EngineState) : List (JobRow × MediaRow) :=
  if s.isQueuePaused then []
  else
    let availableSlots : Int := (s.maxParallelJobs : Int) - s.activeJobs
    if availableSlots ≤ 0 then []
    else getJobsByStatus s.db .queued availableSlots.toNat

/-- setMaxParallelJobs (encoder.js, lines 726-730): clamps the new limit to
a minimum of 1 and touches nothing else in the engine state. -/
def setMaxParallelJobs (count : Nat) (s : EngineState) : EngineState :=
  { s with maxParallelJobs := max 1 count }

/-- pauseQueue (encoder.js, lines 693-703): sets the paused flag. -/
def pauseQueue (s : EngineState) : EngineState :=
  { s with isQueuePaused := true }

/-- resumeQueue (encoder.js, lines 708-721): clears the paused flag (and
triggers an immediate extra polling pass, not modelled as state). -/
def resumeQueue (s : EngineState) : EngineState :=
  { s with isQueuePaused := false }

/-- Row of the schedule table as used by checkIfScheduleShouldBeActive
(scheduler.js): CSV weekday list, HH:MM start and end strings, and the
concurrency limit to apply while the window is active. -/
structure ScheduleRule where
  id : Nat
  days_of_week : String
  start_time : String
  end_time : String
  max_parallel_jobs : Nat
deriving DecidableEq, Repr

/-- Signal a rule evaluation sends to the dispatch engine: pauseQueue, or
resumeQueue plus setMaxParallelJobs with the rule's configured limit. -/
inductive ScheduleSignal where
  | pauseSignal
  | resumeSignal (limit : Nat)
deriving DecidableEq, Repr

/-- Lexicographic comparison of char lists by code point, as JS applies to
its UTF-16 code-unit string comparison (identical on ASCII HH:MM data). -/
def charListLe : List Char → List Char → Bool
  | [], _ => true
  | _ :: _, [] => false
  | a :: as, b :: bs =>
    if a.val < b.val then true
    else if b.val < a.val then false
    else charListLe as bs

/-- JS string <= comparison, modelled on the underlying char lists. -/
def strLe (s t : String) : Bool := charListLe s.data t.data

/-- Splitting of a char list on a separator char, modelling the JS
String.split calls (whose separators here are all single chars); the empty
list splits to one empty part, as in JS. -/
def splitOnChar (sep : Char) : List Char → List (List Char)
  | [] => [[]]
  | c :: cs =>
    let rest := splitOnChar sep cs
    if c == sep then [] :: rest
    else
      match rest with
      | [] => [[c]]
      | r :: rs => (c :: r) :: rs

/-- Digit char of a single decimal digit. -/
def digitChar (n : Nat) : Char := Char.ofNat (48 + n)

/-- Decimal rendering of the hour and minute components (always below 60,
so at most two digits) zero-padded to width two: toString followed by
padStart(2, the zero char) in scheduler.js line 135. -/
def pad2chars (n : Nat) : List Char :=
  if n < 10 then ['0', digitChar n] else [digitChar (n / 10), digitChar (n % 10)]

/-- Current wall-clock time-of-day string as scheduler.js builds it. -/
def currentTimeString (hours minutes : Nat) : String :=
  String.mk (pad2chars hours ++ ':' :: pad2chars minutes)

/-- Numeric reading of one CSV part, modelling JS Number on the digit
strings the schedule table stores in days_of_week. -/
def charsToNat (cs : List Char) : Nat :=
  cs.foldl (fun acc c => acc * 10 + (c.toNat - 48)) 0

/-- Weekday array of a rule: days_of_week split on commas, each part read as
a number (scheduler.js line 137). -/
def ruleDaysArray (rule : ScheduleRule) : List Nat :=
  (splitOnChar ',' rule.days_of_week.data).map charsToNat

/-- checkIfScheduleShouldBeActive (scheduler.js, lines 130-164) as a
function of the rule and the current weekday and time: when the weekday is
in the rule's day set and start_time <= current <= end_time under string
comparison, it calls resumeQueue and setMaxParallelJobs(max_parallel_jobs);
in every other case it calls pauseQueue. -/
def checkIfScheduleShouldBeActive (rule : ScheduleRule) (day hours minutes : Nat) :
    ScheduleSignal :=
  let currentTime := currentTimeString hours minutes
  if (ruleDaysArray rule).contains day then
    if strLe rule.start_time currentTime && strLe currentTime rule.end_time then
      .resumeSignal rule.max_parallel_jobs
    else
      .pauseSignal
  else
    .pauseSignal

/-- Effect of a schedule signal on the engine state: the pause branch calls
pauseQueue, the resume branch calls resumeQueue then setMaxParallelJobs. -/
def applyScheduleSignal (sig : ScheduleSignal) (s : EngineState) : EngineState :=
  match sig with
  | .pauseSignal => pauseQueue s
  | .resumeSignal limit => setMaxParallelJobs limit (resumeQueue s)

/-- Outcome of the ffprobe call on one file: the probe itself fails, or it
succeeds with no video stream, or it reports the video codec name. -/
inductive ProbeResult where
  | probeError
  | noVideo
  | video (codec : String)
deriving DecidableEq, Repr

/-- Directory listing as the scanner sees it, in readdir order: empty, a
file entry (with its size, a flag saying whether fs.stat throws on it, and
its probe outcome) followed by the rest of the listing, or a subdirectory
with its own listing followed by the rest. (Directory stat failures are not
modelled separately; the stat of a directory entry is taken to succeed.) -/
inductive FSForest where
  | nil
  | fileCons (name : String) (size : Nat) (statFails : Bool) (probe : ProbeResult)
      (rest : FSForest)
  | dirCons (name : String) (sub : FSForest) (rest : FSForest)
deriving Repr

/-- Last-dot extension of a filename, with the dot; models Node
path.extname on ordinary media filenames (names with no dot give the empty
string). -/
def extname (filename : String) : String :=
  match (splitOnChar '.' filename.data).reverse with
  | [] => ""
  | [_] => ""
  | ext :: _ => String.mk ('.' :: ext)

/-- Recognized media container extensions (scanner.js isMediaFile). -/
def mediaExtensions : List String :=
  [".mp4", ".mkv", ".avi", ".mov", ".wmv", ".m4v", ".mpg", ".mpeg", ".flv"]

/-- isMediaFile (scanner.js, lines 207-211): extension membership test,
lowercased. -/
def isMediaFile (filename : String) : Bool :=
  mediaExtensions.contains (lowerStr (extname filename))

/-- Joining of char-list segments with a separator char (the inverse of
splitOnChar, modelling path joining for dirname). -/
def joinWithChar (sep : Char) : List (List Char) → List Char
  | [] => []
  | [x] => x
  | x :: xs => x ++ sep :: joinWithChar sep xs

/-- Last path segment (Node path.basename on slash-separated paths). -/
def pathBasename (p : String) : String :=
  String.mk (((splitOnChar '/' p.data).reverse).headD [])

/-- Containing directory (Node path.dirname on slash-separated paths). -/
def pathDirname (p : String) : String :=
  String.mk (joinWithChar '/' ((splitOnChar '/' p.data).dropLast))

/-- Filename without its extension (path.basename(filePath, extname)). -/
def stripExt (name : String) : String :=
  String.mk (name.data.take (name.data.length - (extname name).data.length))

/-- Matcher for the S<digits>E<digits> alternative of the episode regex at
the head of a char list, case-insensitive. -/
def matchSEAt : List Char → Bool
  | [] => false
  | c :: rest =>
    (c == 'S' || c == 's') &&
      (!(rest.takeWhile Char.isDigit).isEmpty &&
        (match rest.dropWhile Char.isDigit with
         | e :: rest2 => (e == 'E' || e == 'e') && !(rest2.takeWhile Char.isDigit).isEmpty
         | [] => false))

/-- Matcher for the <digits>x<digits> alternative of the episode regex at
the head of a char list, case-insensitive. -/
def matchNxNAt (cs : List Char) : Bool :=
  !(cs.takeWhile Char.isDigit).isEmpty &&
    (match cs.dropWhile Char.isDigit with
     | x :: rest => (x == 'x' || x == 'X') && !(rest.takeWhile Char.isDigit).isEmpty
     | [] => false)

/-- Unanchored search for the episode-marker regex
S(\d+)E(\d+)|(\d+)x(\d+) with the i flag (scanner.js line 265). -/
def hasEpisodeMarker (s : String) : Bool :=
  (List.range s.data.length).any (fun i => matchSEAt (s.data.drop i) || matchNxNAt (s.data.drop i))

/-- Classification result of extractMediaInfo. -/
structure ExtractedInfo where
  title : String
  episodeName : Option String
  mediaType : String
deriving DecidableEq, Repr

/-- extractMediaInfo (scanner.js, lines 258-284): an episode marker in the
extension-stripped filename makes the file series-like (title is the parent
directory name, episode name is the filename, type tv); otherwise it is a
movie titled by the filename with no episode name. -/
def extractMediaInfo (filePath : String) : ExtractedInfo :=
  let fileName := stripExt (pathBasename filePath)
  let dirName := pathBasename (pathDirname filePath)
  if hasEpisodeMarker fileName then
    { title := dirName, episodeName := some fileName, mediaType := "tv" }
  else
    { title := fileName, episodeName := none, mediaType := "movie" }

/-- Per-file outcome of processMediaFile: the row was upserted (with its
needsEncoding classification), or the file had no video stream (skipped,
returns null), or the probe threw (the caller counts an error). -/
inductive ProcessOutcome where
  | added (needsEncoding : Bool)
  | skippedNoVideo
  | processFailed
deriving DecidableEq, Repr

/-- processMediaFile (scanner.js, lines 216-253): probes the file, skips it
when no video stream exists, otherwise classifies it, builds the media
record and upserts it via addMedia, reporting whether the codec needs
encoding. A probe failure propagates as a thrown error. -/
def processMediaFile (db : DB) (filePath : String) (fileSize : Nat) (probe : ProbeResult) :
    DB × ProcessOutcome :=
  match probe with
  | .probeError => (db, .processFailed)
  | .noVideo => (db, .skippedNoVideo)
  | .video codec =>
    let info := extractMediaInfo filePath
    let mediaInfo : MediaInfo :=
      { title := info.title
        episode_name := info.episodeName
        directory := pathDirname filePath
        file_path := filePath
        file_size_bytes := fileSize
        encoding_type := codec
        media_type := info.mediaType }
    let db' := (addMedia db mediaInfo).1
    let needsEncoding := !(acceptedCodecs.contains (lowerStr codec))
    (db', .added needsEncoding)

/-- Aggregate counters returned by a scan (scanner.js scanLibrary). -/
structure ScanResults where
  scanned : Nat
  added : Nat
  errors : Nat
  needsEncoding : Nat
deriving DecidableEq, Repr

/-- scanDirectory (scanner.js, lines 160-202) over a directory listing. The
for loop stats every entry first: a stat failure escapes the inner
try/catch (which only wraps processMediaFile), lands in the invocation's
outer catch, counts one error and returns — abandoning the remaining
entries of this listing, while the caller (a parent directory's loop)
continues. Directories recurse; media files are counted in scanned, then
processed: a probe failure is caught per-file, counts one error, and the
loop continues with the next entry. -/
def scanEntries (db : DB) (r : ScanResults) (dirPath : String) :
    FSForest → DB × ScanResults
  | .nil => (db, r)
  | .dirCons name sub rest =>
    let res := scanEntries db r (dirPath ++ "/" ++ name) sub
    scanEntries res.1 res.2 dirPath rest
  | .fileCons name size statFails probe rest =>
    if statFails then
      (db, { r with errors := r.errors + 1 })
    else if isMediaFile name then
      let r1 := { r with scanned := r.scanned + 1 }
      match processMediaFile db (dirPath ++ "/" ++ name) size probe with
      | (db', .added ne) =>
        scanEntries db'
          { r1 with added := r1.added + 1
                    needsEncoding := r1.needsEncoding + (if ne then 1 else 0) }
          dirPath rest
      | (db', .skippedNoVideo) => scanEntries db' r1 dirPath rest
      | (db', .processFailed) =>
        scanEntries db' { r1 with errors := r1.errors + 1 } dirPath rest
    else
      scanEntries db r dirPath rest

/-- Counters of a whole scan of a root listing, starting from zero
(scanLibrary, lines 129-155; the watcher setup and the trailing
queueEncodingJobs call are separate operations). -/
def scanLibrary (db : DB) (rootPath : String) (entries : FSForest) :
    DB × ScanResults :=
  scanEntries db { scanned := 0, added := 0, errors := 0, needsEncoding := 0 }
    rootPath entries

/-- Observable state of one job's execution inside the dispatch engine:
its status, the byte content of its source file and of its scratch output
(contents abstracted as numbers), whether markMediaAsEncoded has run for
its media row, the engine's activeJobs counter, and whether the job id sits
in the activeJobsMap. -/
structure JobExecState where
  status : JobStatus
  sourceContent : Nat
  tempContent : Option Nat
  mediaMarked : Bool
  activeJobs : Int
  inFlight : Bool
deriving DecidableEq, Repr

/-- Outcome of the external encoder run and the subsequent finalization,
covering every path of startFFmpegEncoding's close/error handlers
(encoder.js, lines 470-529) and replaceOriginalFile (lines 544-599):
processFail - the ffmpeg process exits non-zero or raises an error event;
replaceOk - exit code 0 and replaceOriginalFile succeeds end to end,
producing a scratch file with the given content;
replaceFail - exit code 0 but replaceOriginalFile throws before or at the
move (empty scratch file, probe failure, or a failing move that leaves the
original in place), so the scratch content never lands on the source. -/
inductive EncodeOutcome where
  | processFail
  | replaceOk (newContent : Nat)
  | replaceFail (newContent : Nat)
deriving DecidableEq, Repr

/-- Step-by-step trace of one job execution, every bookkeeping mutation an
entry, translated from startEncodingJob (encoder.js, lines 357-410), the
close handler of startFFmpegEncoding (lines 470-529) and
replaceOriginalFile (lines 544-599). On replaceFail, the catch block of
replaceOriginalFile sets failed, decrements activeJobs and deletes the map
entry, then rethrows into the close handler's catch, which sets failed,
decrements activeJobs and deletes the map entry a second time. -/
def jobTrace (init : JobExecState) (outcome : EncodeOutcome) : List JobExecState :=
  let s1 := { init with activeJobs := init.activeJobs + 1 }
  let s2 := { s1 with status := .processing }
  let s3 := { s2 with inFlight := true }
  match outcome with
  | .processFail =>
    let s4 := { s3 with status := .failed }
    let s5 := { s4 with activeJobs := s4.activeJobs - 1, inFlight := false }
    [init, s1, s2, s3, s4, s5]
  | .replaceOk newContent =>
    let s4 := { s3 with tempContent := some newContent }
    let s5 := { s4 with status := .replacing_file }
    let s6 := { s5 with sourceContent := newContent, tempContent := none }
    let s7 := { s6 with mediaMarked := true }
    let s8 := { s7 with status := .completed }
    let s9 := { s8 with activeJobs := s8.activeJobs - 1, inFlight := false }
    [init, s1, s2, s3, s4, s5, s6, s7, s8, s9]
  | .replaceFail newContent =>
    let s4 := { s3 with tempContent := some newContent }
    let s5 := { s4 with status := .replacing_file }
    let s6 := { s5 with status := .failed }
    let s7 := { s6 with activeJobs := s6.activeJobs - 1, inFlight := false }
    let s8 := { s7 with status := .failed }
    let s9 := { s8 with activeJobs := s8.activeJobs - 1, inFlight := false }
    [init, s1, s2, s3, s4, s5, s6, s7, s8, s9]

/-- Initial execution state of a freshly admitted job: queued, source file
holding content 0, no scratch output, no in-flight bookkeeping. -/
def initialJobState : JobExecState :=
  { status := .queued
    sourceContent := 0
    tempContent := none
    mediaMarked := false
    activeJobs := 0
    inFlight := false }

/-- Fresh database as initializeDatabase leaves it (no rows; AUTOINCREMENT
counters start at 1). -/
def emptyDB : DB := { media := [], jobs := [], nextMediaId := 1, nextJobId := 1 }

/-- Concrete discovered-file record used by the concrete-input theorems: an
H.264 movie file, so needs_encoding is computed true. -/
def mediaInfoA : MediaInfo :=
  { title := "T"
    episode_name := none
    directory := "/lib"
    file_path := "/lib/T.mkv"
    file_size_bytes := 1000
    encoding_type := "h264"
    media_type := "movie" }

/-- Media row addMedia creates from mediaInfoA in an empty database. -/
def mediaRowA : MediaRow :=
  { id := 1
    title := "T"
    episode_name := none
    directory := "/lib"
    file_path := "/lib/T.mkv"
    file_size_bytes := 1000
    encoding_type := "h264"
    media_type := "movie"
    needs_encoding := true
    encoded_previously := false }

/-- Database holding exactly the media row for mediaInfoA. -/
def dbWithMediaA : DB := (addMedia emptyDB mediaInfoA).1

/-- Database with the mediaInfoA row and one failed encoding job for it, as
left by admission followed by a failed dispatch attempt (the error branch
of the match is unreachable: media id 1 exists in dbWithMediaA). -/
def dbWithFailedJob : DB :=
  match createEncodingJob dbWithMediaA 1 0 with
  | .ok (d, _) =>
    updateJobStatus d 1 .failed
      { temp_file_path := none
        new_size_bytes := none
        retries := none
        error_message := some (some ("boom")) }
  | .error _ => dbWithMediaA

/-- Failed job row held by dbWithFailedJob. -/
def failedJobRow : JobRow :=
  { id := 1
    media_id := 1
    status := .failed
    priority := 0
    temp_file_path := none
    original_size_bytes := 1000
    new_size_bytes := none
    error_message := some ("boom")
    retries := 0 }

/-- Schedule rule covering all weekdays, 00:00 to 23:59, limit 3. -/
def ruleAllDays : ScheduleRule :=
  { id := 1
    days_of_week := "0,1,2,3,4,5,6"
    start_time := "00:00"
    end_time := "23:59"
    max_parallel_jobs := 3 }

/-- Schedule rule enabled for Monday and Tuesday only, 09:00 to 17:00. -/
def ruleWeekdays : ScheduleRule :=
  { id := 2
    days_of_week := "1,2"
    start_time := "09:00"
    end_time := "17:00"
    max_parallel_jobs := 3 }

/-- Paused engine state with two free slots over an empty database. -/
def enginePaused : EngineState :=
  { maxParallelJobs := 2
    activeJobs := 0
    isQueuePaused := true
    activeJobsMap := []
    db := emptyDB }

/-- Saturated engine state: activeJobs equals the concurrency limit. -/
def engineFull : EngineState :=
  { maxParallelJobs := 2
    activeJobs := 2
    isQueuePaused := false
    activeJobsMap := []
    db := emptyDB }

/-- Zeroed scan counters, as scanLibrary starts from. -/
def zeroScan : ScanResults :=
  { scanned := 0, added := 0, errors := 0, needsEncoding := 0 }

/-! Shared helper lemmas about the embedded operations. -/

/-- Ordered insertion grows the length by one. -/
theorem length_insertSorted (le : α → α → Bool) (a : α) (l : List α) :
    (insertSorted le a l).length = l.length + 1 := by
  induction l with
  | nil => rfl
  | cons b l ih => by_cases h : le a b <;> simp [insertSorted, h, ih]

/-- The ORDER BY model preserves length. -/
theorem length_sortByLe (le : α → α → Bool) (l : List α) :
    (sortByLe le l).length = l.length := by
  induction l with
  | nil => rfl
  | cons a l ih => simp [sortByLe, length_insertSorted, ih]

/-- getJobsByStatus returns at most its LIMIT argument. -/
theorem getJobsByStatus_length_le (db : DB) (st : JobStatus) (lim : Nat) :
    (getJobsByStatus db st lim).length ≤ lim := by
  simp [getJobsByStatus, List.length_take]

/-- applyJobUpdate never touches the primary key. -/
theorem applyJobUpdate_id (j : JobRow) (st : JobStatus) (u : JobUpdate) :
    (applyJobUpdate j st u).id = j.id := rfl

/-- Looking a job id up after the UPDATE of that id finds exactly the
updated row. -/
theorem find?_updateJobStatus (jobs : List JobRow) (jobId : Nat) (st : JobStatus)
    (u : JobUpdate) :
    (jobs.map (fun j => if j.id == jobId then applyJobUpdate j st u else j)).find?
        (fun j => j.id == jobId)
      = (jobs.find? (fun j => j.id == jobId)).map (fun j => applyJobUpdate j st u) := by
  induction jobs with
  | nil => rfl
  | cons a l ih =>
    cases h : (a.id == jobId) with
    | true =>
      have hfa : (if (a.id == jobId) = true then applyJobUpdate a st u else a)
          = applyJobUpdate a st u := if_pos h
      have hpu : ((applyJobUpdate a st u).id == jobId) = true := by
        rw [applyJobUpdate_id]; exact h
      rw [List.map_cons, hfa]
      simp only [List.find?, hpu, h]
      rfl
    | false =>
      have hfa : (if (a.id == jobId) = true then applyJobUpdate a st u else a) = a := by
        rw [if_neg]; simp [h]
      rw [List.map_cons, hfa]
      simp only [List.find?, h]
      exact ih

/-- getJobById after updateJobStatus of the same id sees the update applied
to the previously joined row. -/
theorem getJobById_updateJobStatus (db : DB) (jobId : Nat) (st : JobStatus) (u : JobUpdate) :
    getJobById (updateJobStatus db jobId st u) jobId
      = (getJobById db jobId).map (fun p => (applyJobUpdate p.1 st u, p.2)) := by
  simp only [getJobById, updateJobStatus, find?_updateJobStatus]
  cases db.jobs.find? (fun j => j.id == jobId) with
  | none => rfl
  | some j =>
    show ((db.media.find? (fun m => m.id == j.media_id)).map
        (fun m => (applyJobUpdate j st u, m)))
      = Option.map (fun p => (applyJobUpdate p.1 st u, p.2))
          ((db.media.find? (fun m => m.id == j.media_id)).map (fun m => (j, m)))
    cases db.media.find? (fun m => m.id == j.media_id) with
    | none => rfl
    | some m => rfl

/-- Filtering by a predicate after removing everything satisfying it leaves
nothing. -/
theorem filter_after_remove {α : Type} (p : α → Bool) (l : List α) :
    (l.filter (fun a => !(p a))).filter p = [] := by
  induction l with
  | nil => rfl
  | cons a l ih => by_cases h : p a = true <;> simp [List.filter_cons, h, ih]

/-! Claim C1. -/

/-- C1 counterexample: the claim says the source file is byte-identical to
its pre-encode state whenever the job's status is anything other than
completed; but in the successful run the replacement move happens while the
job's status is still replacing_file (updateJobStatus to completed only
comes afterwards, encoder.js lines 561-570), so the trace reaches a state
whose status is not completed yet whose source content differs. -/
theorem source_changed_in_replacing_state :
    ∃ s ∈ jobTrace initialJobState (.replaceOk 1),
      s.status ≠ .completed ∧ s.sourceContent ≠ initialJobState.sourceContent := by
  refine ⟨{ status := .replacing_file
            sourceContent := 1
            tempContent := none
            mediaMarked := false
            activeJobs := 1
            inFlight := true }, by decide, by decide, by decide⟩

/-- C1 amended: the source file is byte-identical to its pre-encode state
in every reachable state whose status is queued, processing, or failed;
only the successful replacement move changes it, and that move happens
while the status is replacing_file and is followed by completed. -/
theorem source_unchanged_before_replacement (init : JobExecState) (outcome : EncodeOutcome) :
    ∀ s ∈ jobTrace init outcome,
      (s.status = .queued ∨ s.status = .processing ∨ s.status = .failed) →
      s.sourceContent = init.sourceContent := by
  intro s hs hstat
  cases outcome <;> simp [jobTrace] at hs <;>
    rcases hs with rfl | rfl | rfl | rfl | rfl | rfl | rfl | rfl | rfl | rfl <;>
    simp_all

/-- C1 witness: the amended theorem applied to the terminal state of a
failed run, whose source content is the initial content 0. -/
theorem source_unchanged_before_replacement_witness :
    ({ status := .failed
       sourceContent := 0
       tempContent := none
       mediaMarked := false
       activeJobs := 0
       inFlight := false } : JobExecState).sourceContent
      = initialJobState.sourceContent :=
  source_unchanged_before_replacement initialJobState .processFail
    { status := .failed
      sourceContent := 0
      tempContent := none
      mediaMarked := false
      activeJobs := 0
      inFlight := false }
    (by decide) (Or.inr (Or.inr rfl))

/-! Claim C2. -/

/-- C2: the claim says admission checks for an existing non-terminal job
before calling createJob, so running it twice never yields two simultaneous
non-terminal jobs for one media id. The code has no such check
(scanner.js queueEncodingJobs creates a job for every media row with
needs_encoding = 1, and the flag stays 1 until an encode completes):
running admission twice over a store holding one media row needing
transcode leaves two queued jobs for media id 1. -/
theorem admission_double_admits_same_media :
    ∃ db1 db2 : DB,
      queueEncodingJobs dbWithMediaA = .ok (db1, 1) ∧
      queueEncodingJobs db1 = .ok (db2, 1) ∧
      nonTerminalJobCount db2 1 = 2 := ⟨_, _, rfl, rfl, rfl⟩

/-! Claim C3. -/

/-- C3: one polling pass starts no jobs when the queue is paused or when
activeJobs has reached maxParallelJobs, and otherwise starts at most
maxParallelJobs minus activeJobs jobs; setMaxParallelJobs clamps its
argument to a minimum of 1 and touches neither activeJobs nor the in-flight
map nor the database, so running jobs are never interrupted by a limit
decrease. -/
theorem dispatch_respects_concurrency_limit (s : EngineState) (n : Nat) :
    (s.isQueuePaused = true → pollPass s = []) ∧
    ((s.maxParallelJobs : Int) ≤ s.activeJobs → pollPass s = []) ∧
    (((pollPass s).length : Int) ≤ max 0 ((s.maxParallelJobs : Int) - s.activeJobs)) ∧
    (setMaxParallelJobs n s).maxParallelJobs = max 1 n ∧
    (setMaxParallelJobs n s).activeJobs = s.activeJobs ∧
    (setMaxParallelJobs n s).activeJobsMap = s.activeJobsMap ∧
    (setMaxParallelJobs n s).db = s.db := by
  refine ⟨?_, ?_, ?_, rfl, rfl, rfl, rfl⟩
  · intro h; simp [pollPass, h]
  · intro h
    simp only [pollPass]
    split
    · rfl
    · rw [if_pos]; omega
  · simp only [pollPass]
    split
    · simp
    · split
      · simp
      · have hlen := getJobsByStatus_length_le s.db .queued
          ((s.maxParallelJobs : Int) - s.activeJobs).toNat
        omega

/-- C3 witness: a paused engine and a saturated engine each start zero
jobs in a polling pass. -/
theorem dispatch_respects_concurrency_limit_witness :
    pollPass enginePaused = [] ∧ pollPass engineFull = [] :=
  ⟨(dispatch_respects_concurrency_limit enginePaused 0).1 rfl,
   (dispatch_respects_concurrency_limit engineFull 0).2.1 (by decide)⟩

/-! Claim C4. -/

/-- C4 counterexample: the claim says the second upsert of a path updates
the record created by the first in place; but addMedia is an
INSERT OR REPLACE, so the second upsert deletes the first record (id 1)
and inserts a brand-new record with fresh id 2 — afterwards no record with
the first id exists. -/
theorem addMedia_twice_creates_new_record :
    ∃ db1 id1 db2 id2,
      addMedia emptyDB mediaInfoA = (db1, id1) ∧
      addMedia db1 mediaInfoA = (db2, id2) ∧
      (db2.media.filter (fun m => m.file_path == mediaInfoA.file_path)).map
          (fun m => m.id) = [id2] ∧
      id2 ≠ id1 ∧
      ¬ ∃ m ∈ db2.media, m.id = id1 := by
  refine ⟨_, _, _, _, rfl, rfl, rfl, by decide, by decide⟩

/-- C4 amended: after any upsert exactly one live media record with the
upserted path exists, but it is always a freshly inserted record carrying
the next AUTOINCREMENT id (REPLACE deletes conflicting rows and inserts
anew), not an in-place update of the previous record. -/
theorem addMedia_unique_path_fresh_id (db : DB) (info : MediaInfo) :
    ((addMedia db info).1.media.filter
        (fun m => m.file_path == info.file_path)).map (fun m => m.id)
      = [db.nextMediaId] ∧
    (addMedia db info).2 = db.nextMediaId := by
  constructor
  · simp [addMedia, List.filter_append, filter_after_remove]
  · rfl

/-! Claim C5. -/

/-- C5: the claim says encoding job records are never deleted, and in
particular re-upserting the media record a job refers to does not remove
the job. It fails: addMedia runs INSERT OR REPLACE with foreign_keys ON,
and the encoding_jobs table declares media_id with ON DELETE CASCADE
(database.js line 69), so re-upserting the path deletes the old media row
and cascades away its job — one media row, one queued job, then a re-upsert
of the same path leaves the jobs table empty. -/
theorem reupsert_cascade_deletes_job :
    ∃ db1 dbJ db2 : DB, ∃ jobId,
      addMedia emptyDB mediaInfoA = (db1, 1) ∧
      createEncodingJob db1 1 0 = .ok (dbJ, jobId) ∧
      dbJ.jobs.length = 1 ∧
      addMedia dbJ mediaInfoA = (db2, 2) ∧
      db2.jobs = [] := ⟨_, _, _, _, rfl, rfl, rfl, rfl, rfl⟩

/-! Claim C6. -/

/-- C6 counterexample: the claim says that after every write on the media
table the needs_transcode flag is false iff the stored codec tag is in the
accepted set; but markMediaAsEncoded writes needs_encoding = 0
unconditionally, so writing codec h264 through it leaves a row whose flag
is false although h264 is not accepted. -/
theorem markMediaAsEncoded_violates_codec_iff :
    ∃ db1 : DB,
      addMedia emptyDB mediaInfoA = (db1, 1) ∧
      ∃ m ∈ (markMediaAsEncoded db1 1 ("h264") 500).media,
        m.needs_encoding = false ∧
        acceptedCodecs.contains (lowerStr m.encoding_type) = false := by
  refine ⟨_, rfl, ?_⟩
  decide

/-- C6 amended: addMedia recomputes needs_encoding from the lowercased
codec tag against the accepted set on every upsert (the written row
satisfies the iff), while markMediaAsEncoded sets the flag to false
unconditionally, whatever codec tag it stores. -/
theorem needs_encoding_write_behavior (db : DB) (info : MediaInfo) (mid : Nat)
    (t : String) (sz : Nat) :
    (∀ m ∈ (addMedia db info).1.media, m.file_path = info.file_path →
      (m.needs_encoding = false ↔
        acceptedCodecs.contains (lowerStr m.encoding_type) = true)) ∧
    (∀ m ∈ (markMediaAsEncoded db mid t sz).media,
      m.id = mid → m.needs_encoding = false) := by
  constructor
  · intro m hm hpath
    simp [addMedia, List.mem_append, List.mem_filter] at hm
    rcases hm with ⟨_, hne⟩ | rfl
    · exact absurd hpath (by simpa using hne)
    · simp
  · intro m hm hid
    simp [markMediaAsEncoded, List.mem_map] at hm
    rcases hm with ⟨m0, _, rfl⟩
    by_cases h : m0.id = mid <;> simp_all

/-- C6 witness: the amended theorem applied to the row addMedia writes for
an H.264 file — flag true, codec not accepted, both sides of the iff
false. -/
theorem needs_encoding_write_behavior_witness :
    mediaRowA.needs_encoding = false ↔
      acceptedCodecs.contains (lowerStr mediaRowA.encoding_type) = true :=
  (needs_encoding_write_behavior emptyDB mediaInfoA 1 ("hevc") 500).1
    mediaRowA (by decide) rfl

/-! Claim C7. -/

/-- C7: restartJob on an unknown id fails with a not-found error;
restartJob on a job whose status is not failed fails with an invalid-state
error and performs no write; restartJob on a failed job rewrites exactly
that job to status queued with the retry count incremented by one and the
error text cleared. -/
theorem restartJob_spec (db : DB) (jobId : Nat) :
    (getJobById db jobId = none → restartJob db jobId = .error .notFound) ∧
    (∀ j m, getJobById db jobId = some (j, m) → ¬ j.status = .failed →
      restartJob db jobId = .error .invalidState) ∧
    (∀ j m, getJobById db jobId = some (j, m) → j.status = .failed →
      restartJob db jobId
          = .ok (updateJobStatus db jobId .queued (restartUpdate j.retries)) ∧
      getJobById (updateJobStatus db jobId .queued (restartUpdate j.retries)) jobId
        = some ({ j with status := .queued
                         retries := j.retries + 1
                         error_message := none }, m)) := by
  refine ⟨?_, ?_, ?_⟩
  · intro h; simp [restartJob, h]
  · intro j m h hs; simp [restartJob, h, hs]
  · intro j m h hs
    constructor
    · simp [restartJob, h, hs]
    · rw [getJobById_updateJobStatus, h]
      simp [applyJobUpdate, restartUpdate]

/-- C7 witness: restarting the failed job of dbWithFailedJob succeeds and
the stored row comes back queued, with retries 1 and no error text. -/
theorem restartJob_spec_witness :
    restartJob dbWithFailedJob 1
        = .ok (updateJobStatus dbWithFailedJob 1 .queued (restartUpdate 0)) ∧
      getJobById (updateJobStatus dbWithFailedJob 1 .queued (restartUpdate 0)) 1
        = some ({ failedJobRow with status := .queued
                                    retries := 1
                                    error_message := none }, mediaRowA) :=
  (restartJob_spec dbWithFailedJob 1).2.2 failedJobRow mediaRowA (by decide) rfl

/-! Claim C8. -/

/-- C8: the immediate evaluation of a rule signals pause whenever the
current weekday is not in the rule's weekday set; when the weekday is in
the set, it signals resume with the rule's configured limit exactly when
the zero-padded current time string lies within start and end under
lexicographic string comparison, and signals pause otherwise; the resume
signal clears the engine's paused flag and sets its concurrency limit to
the rule's configured value (for any configured value of at least 1, which
the settings surface enforces), and the pause signal sets the paused
flag. -/
theorem scheduleRule_evaluation (rule : ScheduleRule) (day hours minutes : Nat) :
    (day ∉ ruleDaysArray rule →
      checkIfScheduleShouldBeActive rule day hours minutes = .pauseSignal) ∧
    (day ∈ ruleDaysArray rule →
      (checkIfScheduleShouldBeActive rule day hours minutes
          = .resumeSignal rule.max_parallel_jobs
        ↔ (strLe rule.start_time (currentTimeString hours minutes) = true ∧
           strLe (currentTimeString hours minutes) rule.end_time = true))) ∧
    (day ∈ ruleDaysArray rule →
      ¬(strLe rule.start_time (currentTimeString hours minutes) = true ∧
        strLe (currentTimeString hours minutes) rule.end_time = true) →
      checkIfScheduleShouldBeActive rule day hours minutes = .pauseSignal) ∧
    (∀ s : EngineState, 1 ≤ rule.max_parallel_jobs →
      applyScheduleSignal (.resumeSignal rule.max_parallel_jobs) s
        = { s with isQueuePaused := false
                   maxParallelJobs := rule.max_parallel_jobs }) ∧
    (∀ s : EngineState,
      applyScheduleSignal .pauseSignal s = { s with isQueuePaused := true }) := by
  refine ⟨?_, ?_, ?_, ?_, ?_⟩
  · intro h; simp [checkIfScheduleShouldBeActive, h]
  · intro h
    by_cases h1 : strLe rule.start_time (currentTimeString hours minutes) = true <;>
      by_cases h2 : strLe (currentTimeString hours minutes) rule.end_time = true <;>
      simp [checkIfScheduleShouldBeActive, h, h1, h2]
  · intro h hw
    by_cases h1 : strLe rule.start_time (currentTimeString hours minutes) = true
    · have h2 : ¬ strLe (currentTimeString hours minutes) rule.end_time = true :=
        fun h2 => hw ⟨h1, h2⟩
      simp [checkIfScheduleShouldBeActive, h, h1, h2]
    · simp [checkIfScheduleShouldBeActive, h, h1]
  · intro s h
    simp [applyScheduleSignal, setMaxParallelJobs, resumeQueue, Nat.max_eq_right h]
  · intro s
    simp [applyScheduleSignal, pauseQueue]

/-- C8 witness: a rule excluding the current weekday pauses; the all-day
rule at 13:07 is inside its window, so its evaluation resumes with limit 3;
applying that resume signal to a paused engine unpauses it and sets the
limit to 3. -/
theorem scheduleRule_evaluation_witness :
    checkIfScheduleShouldBeActive ruleWeekdays 0 13 7 = .pauseSignal ∧
    (checkIfScheduleShouldBeActive ruleAllDays 4 13 7 = .resumeSignal 3 ↔
      (strLe ("00:00") (currentTimeString 13 7) = true ∧
       strLe (currentTimeString 13 7) ("23:59") = true)) ∧
    applyScheduleSignal (.resumeSignal 3) enginePaused
      = { enginePaused with isQueuePaused := false, maxParallelJobs := 3 } :=
  ⟨(scheduleRule_evaluation ruleWeekdays 0 13 7).1 (by decide),
   (scheduleRule_evaluation ruleAllDays 4 13 7).2.1 (by decide),
   (scheduleRule_evaluation ruleAllDays 4 13 7).2.2.2.1 enginePaused (by decide)⟩

/-! Claim C9. -/

/-- C9 counterexample: the claim says a stat error on one file does not
prevent any of the remaining files under the root from being visited; but
the per-entry fs.stat call sits outside the inner try/catch
(scanner.js line 166), so a stat error aborts the rest of that directory
listing: scanning a stat-failing file followed by a healthy H.264 file
counts one error and never visits the healthy file, while scanning the
healthy file alone visits and adds it. -/
theorem statError_prevents_sibling_processing :
    (scanLibrary emptyDB ("/root")
        (.fileCons ("a.mkv") 10 true (.video ("h264"))
          (.fileCons ("b.mkv") 10 false (.video ("h264")) .nil))).2
      = { scanned := 0, added := 0, errors := 1, needsEncoding := 0 } ∧
    (scanLibrary emptyDB ("/root")
        (.fileCons ("b.mkv") 10 false (.video ("h264")) .nil)).2
      = { scanned := 1, added := 1, errors := 0, needsEncoding := 1 } := by
  constructor
  · rfl
  · rfl

/-- C9 amended: a probe failure on one file is caught per file — it counts
one error and the scan continues with the remaining entries of the
directory; a stat failure also counts one error but abandons the remaining
entries of that directory listing only, while entries of enclosing
directories are still processed (a subdirectory is scanned as its own
invocation whose result feeds the continuation of the parent listing); the
scan function is total and always returns its aggregate counters. -/
theorem scan_failure_containment (db : DB) (r : ScanResults) (dirPath name subName : String)
    (size : Nat) (p : ProbeResult) (rest sub : FSForest) :
    (scanEntries db r dirPath (.fileCons name size true p rest)
      = (db, { r with errors := r.errors + 1 })) ∧
    (isMediaFile name = true →
      scanEntries db r dirPath (.fileCons name size false .probeError rest)
        = scanEntries db
            { r with scanned := r.scanned + 1, errors := r.errors + 1 } dirPath rest) ∧
    (scanEntries db r dirPath (.dirCons subName sub rest)
      = scanEntries (scanEntries db r (dirPath ++ "/" ++ subName) sub).1
          (scanEntries db r (dirPath ++ "/" ++ subName) sub).2 dirPath rest) := by
  refine ⟨rfl, ?_, rfl⟩
  intro h
  simp [scanEntries, h, processMediaFile]

/-- C9 witness: a probe-failing media file is counted as scanned and as one
error, and scanning continues with the (empty) remainder of the listing. -/
theorem scan_failure_containment_witness :
    scanEntries emptyDB zeroScan ("/root") (.fileCons ("b.mkv") 5 false .probeError .nil)
      = scanEntries emptyDB
          { scanned := 1, added := 0, errors := 1, needsEncoding := 0 } ("/root") .nil :=
  (scan_failure_containment emptyDB zeroScan ("/root") ("b.mkv") ("x") 5
    .probeError .nil .nil).2.1 (by decide)

/-! Claim C10. -/

/-- C10: the claim says every transition to a terminal status decrements
activeJobs exactly once and removes the in-flight entry exactly once,
including the path where replacement fails after a successful encode, so
the counter always equals the number of jobs in flight and is never
negative. On that very path the code decrements twice — once in
replaceOriginalFile's catch (encoder.js lines 593-595) and once more in the
close handler's catch the rethrow lands in (lines 496-497) — so a single
job run started from an idle engine ends with activeJobs at minus one while
no job is in flight. -/
theorem replaceFail_double_decrements_activeJobs :
    ((jobTrace initialJobState (.replaceFail 1)).getLast?).map
        (fun s => (s.activeJobs, s.inFlight))
      = some (-1, false) := by decide

end Encoder
